import Mathlib

/-!
Verification of the record-reconciliation engine of `app.py` (textbook
reporting system).  The Python source is shallowly embedded: rows of the
three tabular sources (Submission, History, Curriculum) become a fixed
`Row` structure of string fields, pandas filters become `List.filter`,
the merge in `load_data` becomes a fold over the filtered rows, and the
editing-session callbacks become explicit state-passing functions.

The built-in `String` library functions of Lean (`trim`, `splitOn`, `<`)
are defined by well-founded recursion and do not reduce in the kernel, so
the few string operations the source uses (`str.strip`, `str.split(',')`,
`str.replace` of single characters, lexicographic comparison) are
re-implemented here as structural recursions over `String.data`; they are
used both in the executable definitions and in concrete evaluations.
-/

namespace CurriculumsFill

/-- Python `str.strip()`: drop leading and trailing whitespace. -/
def trimChars (l : List Char) : List Char :=
  ((l.dropWhile Char.isWhitespace).reverse.dropWhile Char.isWhitespace).reverse

/-- Python `str.strip()` on a whole string. -/
def pyStrip (s : String) : String := String.mk (trimChars s.data)

/-- Python `str.split(',')`: split at every comma (keeping empty pieces). -/
def splitCommaAux : List Char → List Char → List (List Char)
  | [], acc => [acc.reverse]
  | c :: rest, acc =>
      if c = ',' then acc.reverse :: splitCommaAux rest []
      else splitCommaAux rest (c :: acc)

/-- The double-quote character stripped by `parse_classes`. -/
def dquoteChar : Char := Char.ofNat 34

/-- The single-quote character stripped by `parse_classes`. -/
def squoteChar : Char := Char.ofNat 39

/-- Model of `parse_classes` from app.py (lines 54-57):
strip quote artifacts, normalize the full-width comma to `,`, split on
commas, trim each token and drop the empty ones.  Python returns a `set`;
the list returned here is only ever used through membership /
intersection tests, for which the two are interchangeable. -/
def parse_classes (class_str : String) : List String :=
  if class_str = "" then []
  else
    let cleaned := (class_str.data.filter
        (fun ch => ch ≠ dquoteChar && ch ≠ squoteChar)).map
        (fun ch => if ch = '，' then ',' else ch)
    ((splitCommaAux cleaned []).map (fun cs => pyStrip (String.mk cs))).filter
      (fun c => c ≠ "")

/-- Model of `check_class_match` from app.py (lines 59-63). -/
def check_class_match (d_str s_str : String) : Bool :=
  let d_set := parse_classes d_str
  let s_set := parse_classes s_str
  if d_set.isEmpty then true
  else if s_set.isEmpty then false
  else d_set.any (fun c => s_set.contains c)

/-- Lexicographic strict comparison of char lists, by code point; this is
how pandas compares the string cells when sorting. -/
def lexLt : List Char → List Char → Bool
  | [], [] => false
  | [], _ :: _ => true
  | _ :: _, [] => false
  | a :: as, b :: bs => if a < b then true else if b < a then false else lexLt as bs

/-- Lexicographic non-strict comparison. -/
def lexLe (x y : List Char) : Bool := !(lexLt y x)

/-- Digit character for `n % 10`. -/
def digitChar (n : Nat) : Char := Char.ofNat (48 + n % 10)

/-- Decimal digits of `n` (fuel-based so that it reduces in the kernel). -/
def natDigits : Nat → Nat → List Char
  | 0, _ => []
  | fuel + 1, n => if n < 10 then [digitChar n] else natDigits fuel (n / 10) ++ [digitChar (n % 10)]

/-- Decimal rendering of a natural number (Python `f"{n}"`). -/
def natToStr (n : Nat) : String := String.mk (natDigits (n + 1) n)

/-- Python `str.startswith` on char lists. -/
def isPrefixChars : List Char → List Char → Bool
  | [], _ => true
  | _ :: _, [] => false
  | a :: as, b :: bs => a == b && isPrefixChars as bs

/-- Python `s.startswith(pre)`. -/
def pyStartswith (s pre : String) : Bool := isPrefixChars pre.data s.data

/-- The column-synonym mapping of `get_df` (app.py lines 186-190). -/
def header_mapping : List (String × String) :=
  [("教科書(1)", "教科書(優先1)"), ("教科書", "教科書(優先1)"),
   ("字號(1)", "審定字號(1)"), ("字號", "審定字號(1)"), ("審定字號", "審定字號(1)"),
   ("教科書(2)", "教科書(優先2)"), ("字號(2)", "審定字號(2)"), ("備註", "備註1")]

/-- Python `mapping.get(c, c)`. -/
def mapping_get (c : String) : String :=
  match header_mapping.find? (fun p => p.1 == c) with
  | some p => p.2
  | none => c

/-- The header-normalization loop of `get_df` (app.py lines 191-204).
`seen` is the Python `seen` dict, modelled as a function with default 0. -/
def get_df_headers_aux : List String → (String → Nat) → List String
  | [], _ => []
  | col :: rest, seen =>
      let c := pyStrip col
      let fin := mapping_get c
      if seen fin ≠ 0 then
        let k := seen fin + 1
        let name := if pyStartswith fin "備註" then "備註" ++ natToStr k
                    else fin ++ "(" ++ natToStr k ++ ")"
        name :: get_df_headers_aux rest (fun x => if x = fin then k else seen x)
      else
        let name := if fin = "備註" then "備註1" else fin
        name :: get_df_headers_aux rest (fun x => if x = fin then 1 else seen x)

/-- Normalized headers produced by `get_df` for a raw header row. -/
def get_df_headers (headers : List String) : List String :=
  get_df_headers_aux headers (fun _ => 0)

/-- One row of any of the three sources after `get_df` header
normalization, with the canonical column set of the app:
`uuid`, `科別` (dept), `年級` (grade), `學期` (sem), `學年度` (year),
`課程名稱` (courseName), `課程類別` (category), `適用班級` (classes),
`預設適用班級` (defaultClasses, Curriculum only), the two book slots,
the two notes, and the transient `勾選` (sel) flag.  A missing cell is
the empty string, which also matches Python falsiness tests. -/
structure Row where
  uuid : String := ""
  dept : String := ""
  grade : String := ""
  sem : String := ""
  year : String := ""
  courseName : String := ""
  category : String := ""
  classes : String := ""
  defaultClasses : String := ""
  book1 : String := ""
  vol1 : String := ""
  pub1 : String := ""
  code1 : String := ""
  book2 : String := ""
  vol2 : String := ""
  pub2 : String := ""
  code2 : String := ""
  note1 : String := ""
  note2 : String := ""
  sel : Bool := false
deriving Repr, DecidableEq

/-- app.py lines 210-213: Submission columns 年級/學期/科別/uuid stripped. -/
def strip_sub (r : Row) : Row :=
  { r with grade := pyStrip r.grade, sem := pyStrip r.sem,
           dept := pyStrip r.dept, uuid := pyStrip r.uuid }

/-- app.py line 219: Curriculum columns 年級/學期/科別 stripped. -/
def strip_curr (r : Row) : Row :=
  { r with grade := pyStrip r.grade, sem := pyStrip r.sem, dept := pyStrip r.dept }

/-- app.py lines 239-241: History columns 年級/學期/科別/學年度/uuid stripped. -/
def strip_hist (r : Row) : Row :=
  { r with grade := pyStrip r.grade, sem := pyStrip r.sem, dept := pyStrip r.dept,
           year := pyStrip r.year, uuid := pyStrip r.uuid }

/-- The `category_map` dict of app.py lines 215-224: iterate the
department's curriculum rows and assign
`category_map[(課程名稱, 年級, 學期)] = 課程類別`; a later row with the
same key overwrites an earlier one.  The dict is modelled as a function
with the `.get(k, "")` default built in. -/
def category_map (curr : List Row) (dept : String) : String × String × String → String :=
  (curr.filter (fun r => r.dept == dept)).foldl
    (fun m r k => if k = (r.courseName, r.grade, r.sem) then r.category else m k)
    (fun _ => "")

/-- The category of the last same-department curriculum row with the given
(course name, grade, semester) key, or `""` when there is none. -/
def last_match_category (curr : List Row) (dept name grade sem : String) : String :=
  match (curr.filter (fun r => r.dept == dept)).reverse.find?
      (fun r => (r.courseName, r.grade, r.sem) == (name, grade, sem)) with
  | some r => r.category
  | none => ""

/-- Intermediate state of the merge in `load_data`: the accumulated
`display_rows`, the `displayed_uuids` set, and a counter for the
`uuid.uuid4()` supply. -/
structure MergeSt where
  rows : List Row
  displayed : List String
  counter : Nat
deriving Repr, DecidableEq

/-- The record built for one History row (app.py lines 256-278): the
first Submission row with the same uuid wins entirely if there is one,
otherwise the History row's own content is used; `勾選` is reset and a
blank `課程類別` is backfilled from `category_map` under the key
(course name, query grade, query semester).  (The legacy-name backfill of
lines 273-274 looks rows up under the pre-normalization names
`教科書(1)`/`字號(1)`/`字號(2)`, which `get_df` always renames away, so it
never fires on a normalized row and has no counterpart here.) -/
def history_record (sub : List Row) (cmap : String × String × String → String)
    (grade sem : String) (h : Row) (hu : String) : Row :=
  let base :=
    match sub.find? (fun s => s.uuid == hu) with
    | some s => { s with sel := false }
    | none => { h with uuid := hu, sel := false }
  { base with category := if base.category ≠ "" then base.category
                          else cmap (base.courseName, grade, sem) }

/-- One iteration of the History loop (app.py lines 256-281): a blank
(stripped) uuid is replaced by a fresh one; the row is always appended
and its uuid added to `displayed_uuids` — duplicates are not detected. -/
def history_step (sub : List Row) (cmap : String × String × String → String)
    (grade sem : String) (fresh : Nat → String) (st : MergeSt) (h : Row) : MergeSt :=
  let hu0 := pyStrip h.uuid
  if hu0 = "" then
    { rows := st.rows ++ [history_record sub cmap grade sem h (fresh st.counter)],
      displayed := st.displayed ++ [fresh st.counter],
      counter := st.counter + 1 }
  else
    { rows := st.rows ++ [history_record sub cmap grade sem h hu0],
      displayed := st.displayed ++ [hu0],
      counter := st.counter }

/-- app.py line 292: `c_row.get('預設適用班級') or c_row.get('適用班級', '')`. -/
def default_class_of (c : Row) : String :=
  if c.defaultClasses ≠ "" then c.defaultClasses else c.classes

/-- app.py line 297: Submission rows matching the scope and course name. -/
def sub_matches_for (sub : List Row) (dept sem grade name : String) : List Row :=
  sub.filter (fun s => s.dept == dept && s.sem == sem && s.grade == grade
    && s.courseName == name)

/-- The placeholder record synthesized for an unmatched curriculum entry
(app.py lines 313-321): fresh uuid, the entry's course name, category and
default class-list, all book slots and notes empty, `勾選 = False`. -/
def placeholder_row (dept grade sem : String) (c : Row) (dc nuuid : String) : Row :=
  { uuid := nuuid, dept := dept, grade := grade, sem := sem,
    category := c.category, courseName := c.courseName, classes := dc,
    book1 := "", vol1 := "", pub1 := "", code1 := "",
    book2 := "", vol2 := "", pub2 := "", code2 := "",
    note1 := "", note2 := "", sel := false }

/-- Inner loop over the matching Submission rows of one curriculum entry
(app.py lines 301-310).  The Bool is `found_match`: it is set by any
class-matching row, whether or not the row is actually appended. -/
def class_match_step (cCat dc : String) (acc : MergeSt × Bool) (s : Row) : MergeSt × Bool :=
  if check_class_match dc s.classes then
    let su := pyStrip s.uuid
    if su ≠ "" && !(acc.1.displayed.contains su) then
      ({ rows := acc.1.rows ++ [{ s with sel := false, category := cCat }],
         displayed := acc.1.displayed ++ [su],
         counter := acc.1.counter }, true)
    else (acc.1, true)
  else acc

/-- One iteration of the Curriculum loop (app.py lines 289-321): pull in
the class-matching Submission rows for this entry's course name, and
synthesize a placeholder exactly when none class-matched. -/
def curriculum_step (sub : List Row) (dept sem grade : String) (fresh : Nat → String)
    (st : MergeSt) (c : Row) : MergeSt :=
  let dc := default_class_of c
  let res := (sub_matches_for sub dept sem grade c.courseName).foldl
    (class_match_step c.category dc) (st, false)
  if res.2 then res.1
  else
    { rows := res.1.rows ++ [placeholder_row dept grade sem c dc (fresh res.1.counter)],
      displayed := res.1.displayed,
      counter := res.1.counter + 1 }

/-- One iteration of the final Submission pass (app.py lines 323-333):
scope-matching Submission rows not yet displayed are appended with
category `自訂/新增`. -/
def orphan_step (st : MergeSt) (s : Row) : MergeSt :=
  let su := pyStrip s.uuid
  if su ≠ "" && !(st.displayed.contains su) then
    { rows := st.rows ++ [{ s with sel := false, category := "自訂/新增" }],
      displayed := st.displayed ++ [su],
      counter := st.counter }
  else st

/-- The comparison key of the final `sort_values(by=['課程類別','課程名稱'],
ascending=[False, True])` (app.py line 341): category descending, then
course name ascending. -/
def cat_name_le (a b : Row) : Bool :=
  lexLt b.category.data a.category.data
  || (a.category == b.category && lexLe a.courseName.data b.courseName.data)

/-- The comparison `cat_name_le` as a relation. -/
def catNameRel (a b : Row) : Prop := cat_name_le a b = true

instance : DecidableRel catNameRel := fun a b => by
  unfold catNameRel; infer_instance

/-- The final sort of `load_data`.  pandas' default sort kind is an
unstable quicksort; `insertionSort` realizes the same weak ordering on
the same multiset of rows, which is all any property stated here depends
on (none depends on the relative order of rows with equal sort keys). -/
def sort_rows (l : List Row) : List Row := l.insertionSort catNameRel

/-- The History filter of app.py lines 247-254 (applied to stripped rows). -/
def hist_filter (hist : List Row) (dept sem grade hy : String) : List Row :=
  (hist.map strip_hist).filter
    (fun h => h.dept == dept && h.sem == sem && h.grade == grade && h.year == hy)

/-- The Submission scope filter of app.py line 324. -/
def sub_scope (sub : List Row) (dept sem grade : String) : List Row :=
  sub.filter (fun s => s.dept == dept && s.sem == sem && s.grade == grade)

/-- The Curriculum scope filter of app.py line 286. -/
def curr_scope (curr : List Row) (dept sem grade : String) : List Row :=
  curr.filter (fun c => c.dept == dept && c.sem == sem && c.grade == grade)

/-- Model of `load_data` from app.py (lines 173-346), the reconciliation engine:
given the three (already header-normalized) sources, the query scope, and
the optional history year (`None` ⇒ curriculum mode), produce the merged
table.  `fresh` models the `uuid.uuid4()` supply. -/
def load_data (sub hist curr : List Row) (dept sem grade : String)
    (history_year : Option String) (fresh : Nat → String) : List Row :=
  let subN := sub.map strip_sub
  let currN := curr.map strip_curr
  let cmap := category_map currN dept
  let st0 : MergeSt := ⟨[], [], 0⟩
  let st1 :=
    match history_year with
    | some hy =>
        (hist_filter hist dept sem grade hy).foldl
          (history_step subN cmap grade sem fresh) st0
    | none =>
        (curr_scope currN dept sem grade).foldl
          (curriculum_step subN dept sem grade fresh) st0
  let st2 := (sub_scope subN dept sem grade).foldl orphan_step st1
  sort_rows st2.rows

/-- The fixed Submission header written by `save_single_row`
(app.py lines 457/461/468). -/
def fixed_header : List String :=
  ["uuid", "填報時間", "學年度", "科別", "學期", "年級", "課程名稱",
   "教科書(1)", "冊次(1)", "出版社(1)", "字號(1)",
   "教科書(2)", "冊次(2)", "出版社(2)", "字號(2)", "適用班級", "備註1", "備註2"]

/-- The `data_dict` of `save_single_row` (app.py lines 477-483), built
from the in-memory row, the current timestamp and the school year. -/
def data_dict (rd : Row) (timestamp schoolYear : String) : List (String × String) :=
  [("uuid", rd.uuid), ("填報時間", timestamp), ("學年度", schoolYear),
   ("科別", rd.dept), ("學期", rd.sem), ("年級", rd.grade), ("課程名稱", rd.courseName),
   ("教科書(1)", rd.book1), ("冊次(1)", rd.vol1), ("出版社(1)", rd.pub1), ("字號(1)", rd.code1),
   ("教科書(2)", rd.book2), ("冊次(2)", rd.vol2), ("出版社(2)", rd.pub2), ("字號(2)", rd.code2),
   ("適用班級", rd.classes), ("備註1", rd.note1), ("備註2", rd.note2)]

/-- Python `dict` lookup on an association list with distinct keys. -/
def dict_find (m : List (String × String)) (k : String) : Option String :=
  (m.find? (fun p => p.1 == k)).map (fun p => p.2)

/-- The `row_to_write` list of `save_single_row` (app.py lines 485-492): one cell
per sheet header, from `data_dict` with legacy-name fallbacks. -/
def row_to_write (headers : List String) (rd : Row) (ts yr : String) : List String :=
  headers.map (fun h =>
    match dict_find (data_dict rd ts yr) h with
    | some v => v
    | none =>
        if h = "字號(1)" ∨ h = "字號" ∨ h = "審定字號" then rd.code1
        else if h = "字號(2)" then rd.code2
        else if h = "備註" then rd.note1
        else "")

/-- Index of the last occurrence of `x` in `l` (the Python
`{h: i for i, h in enumerate(headers)}` dict keeps the last index for a
duplicated header).  Only used when `x ∈ l`. -/
def last_index_of (l : List String) (x : String) : Nat :=
  l.length - 1 - l.reverse.indexOf x

/-- First data row (0-based, header excluded) whose cell in column `idx`
equals `target`; `get_all_values` returns rectangular rows, so a short
row is read as blank cells. -/
def find_row_idx (rows : List (List String)) (idx : Nat) (target : String) : Option Nat :=
  rows.findIdx? (fun r => (r.getD idx "") == target)

/-- Model of `save_single_row` from app.py (lines 449-508), as its effect on the
Submission sheet (header row first).  An empty sheet first receives the
fixed header; a sheet whose header lacks a `uuid` column is cleared and
re-headed (discarding all its data rows); then the record is written over
the first row with the same uuid, or appended. -/
def save_single_row (sheet : List (List String)) (rd : Row) (ts yr : String) :
    List (List String) :=
  let allValues := if sheet.isEmpty then [fixed_header] else sheet
  match allValues with
  | [] => [fixed_header]
  | headers0 :: dataRows0 =>
    let hd := if headers0.contains "uuid" then (headers0, dataRows0)
              else (fixed_header, ([] : List (List String)))
    let headers := hd.1
    let dataRows := hd.2
    let row := row_to_write headers rd ts yr
    let target :=
      if rd.uuid ≠ "" && headers.contains "uuid" then
        find_row_idx dataRows (last_index_of headers "uuid") rd.uuid
      else none
    match target with
    | some i => headers :: dataRows.set i row
    | none => headers :: (dataRows ++ [row])

/-- Model of `delete_row_from_db` from app.py (lines 510-529): returns whether a
row was deleted, and the resulting sheet.  (Python `headers.index` takes
the first occurrence.) -/
def delete_row_from_db (sheet : List (List String)) (targetUuid : String) :
    Bool × List (List String) :=
  if targetUuid = "" then (false, sheet)
  else
    match sheet with
    | [] => (false, sheet)
    | headers :: dataRows =>
        if headers.contains "uuid" then
          match find_row_idx dataRows (headers.indexOf "uuid") targetUuid with
          | some i => (true, headers :: dataRows.eraseIdx i)
          | none => (false, headers :: dataRows)
        else (false, headers :: dataRows)

/-- The editing-session state relevant to deletion: the in-memory merged
table, the index of the row being edited, and its uuid. -/
structure Session where
  data : List Row
  editIndex : Option Nat
  currentUuid : Option String
deriving Repr, DecidableEq

/-- The delete-button flow of `main` (app.py lines 1125-1131): only when
`delete_row_from_db` reports success is the row dropped from the
in-memory table and the edit index cleared.  (This branch is only
reachable while editing, so `editIndex` is `some i`.) -/
def main_delete (sess : Session) (sheet : List (List String)) :
    Session × List (List String) :=
  let res := delete_row_from_db sheet (sess.currentUuid.getD "")
  if res.1 then
    ({ data := sess.data.eraseIdx (sess.editIndex.getD 0),
       editIndex := none, currentUuid := sess.currentUuid }, res.2)
  else (sess, res.2)

/-- The editing-session state relevant to selection: the in-memory merged
table (with its `勾選` flags) and `edit_index`. -/
structure EditorSt where
  data : List Row
  editIndex : Option Nat
deriving Repr, DecidableEq

/-- Update of one row's selection flag, Python
`st.session_state['data'].at[i, "勾選"] = b` (no-op out of range). -/
def set_sel (l : List Row) (i : Nat) (b : Bool) : List Row :=
  match l[i]? with
  | some r => l.set i { r with sel := b }
  | none => l

/-- The `勾選` change recorded for row `i` in the `edited_rows` dict:
`none` if row `i` has no pending edit, `some none` if its edit does not
touch `勾選`, `some (some b)` if it sets the flag to `b`. -/
def lookup_edit (edits : List (Nat × Option Bool)) (i : Nat) : Option (Option Bool) :=
  (edits.find? (fun e => e.1 == i)).map (fun e => e.2)

/-- Case B of `on_editor_change` (app.py lines 913-917): check the newly
selected row, unchecking the previously selected one if different. -/
def apply_check (st : EditorSt) (newIdx : Option Nat) : EditorSt :=
  match newIdx with
  | none => st
  | some j =>
      let d :=
        match st.editIndex with
        | some ci => if ci ≠ j then set_sel st.data ci false else st.data
        | none => st.data
      { data := set_sel d j true, editIndex := some j }

/-- Model of `on_editor_change` from app.py (lines 885-943), restricted to its
effect on the `勾選` column and `edit_index` (the edit-buffer snapshot it
also fills is not involved in the selection invariant).  `edits` is the
`edited_rows` dict of the data editor, in insertion order. -/
def on_editor_change (st : EditorSt) (edits : List (Nat × Option Bool)) : EditorSt :=
  let newCheckedIdx := (edits.find? (fun e => e.2 == some true)).map (fun e => e.1)
  match st.editIndex with
  | some ci =>
      if lookup_edit edits ci = some (some false) then
        { data := set_sel st.data ci false, editIndex := none }
      else apply_check st newCheckedIdx
  | none => apply_check st newCheckedIdx

/-- The merged table as `auto_load_data` installs it (app.py lines
849-852): all `勾選` flags false, no row being edited. -/
def initial_editor (rows : List Row) : EditorSt :=
  ⟨rows.map (fun r => { r with sel := false }), none⟩

/-- Number of selected rows of the in-memory table. -/
def count_selected (l : List Row) : Nat := (l.filter (fun r => r.sel)).length

/-- Number of records carrying a given identity. -/
def uuid_count (l : List Row) (u : String) : Nat := l.countP (fun r => r.uuid == u)

/-- A concrete deterministic stand-in for the `uuid.uuid4()` supply, used
in the concrete evaluations below. -/
def fresh_fn (n : Nat) : String := "fresh" ++ natToStr n

/-- The record being saved in the C10 witness. -/
def c10_rd : Row :=
  { uuid := "U7", dept := "機械科", grade := "1", sem := "1", courseName := "數學",
    classes := "一機甲", book1 := "數學課本", vol1 := "全", pub1 := "出版社",
    code1 := "審定123" }

/-- Editor invariant: a row's selection flag is true only at the index
recorded as `edit_index`. -/
def sel_only_at (st : EditorSt) : Prop :=
  ∀ i r, st.data[i]? = some r → r.sel = true → st.editIndex = some i

/-- Two unselected rows for the C6 witness. -/
def c6_rows : List Row :=
  [{ courseName := "國文" }, { courseName := "數學" }]

/-- Concrete Submission row (non-blank stored category) for the C1 witness. -/
def c1w_sub : Row :=
  { uuid := "A1", dept := "機械科", grade := "1", sem := "1", courseName := "物理",
    classes := "一機甲", category := "部定必修", book1 := "物理學" }

/-- Concrete History row sharing identity `A1` for the C1 witness. -/
def c1w_hist : Row :=
  { uuid := "A1", dept := "機械科", grade := "1", sem := "1", year := "113",
    courseName := "物理", classes := "一機甲,一機乙", book1 := "舊物理" }

/-- Concrete Submission row with *blank* stored category (C1 counterexample). -/
def c1c_sub : Row :=
  { uuid := "A1", dept := "機械科", grade := "1", sem := "1", courseName := "物理",
    classes := "一機甲", book1 := "舊版物理" }

/-- Concrete History row sharing identity `A1` (C1 counterexample). -/
def c1c_hist : Row :=
  { uuid := "A1", dept := "機械科", grade := "1", sem := "1", year := "113",
    courseName := "物理", classes := "一機甲,一機乙", category := "歷史類別",
    book1 := "歷史物理" }

/-- Concrete Curriculum entry for 物理 (C1 counterexample). -/
def c1c_curr : Row :=
  { dept := "機械科", grade := "1", sem := "1", courseName := "物理",
    category := "部定必修" }

/-- First History row with duplicated identity `B2` (C2). -/
def c2_h1 : Row :=
  { uuid := "B2", dept := "機械科", grade := "1", sem := "1", year := "113",
    courseName := "甲課" }

/-- Second History row with duplicated identity `B2` (C2). -/
def c2_h2 : Row :=
  { uuid := "B2", dept := "機械科", grade := "1", sem := "1", year := "113",
    courseName := "乙課" }

/-- Concrete Curriculum entry with no Submission row (C3 witness). -/
def c3w_curr : Row :=
  { dept := "機械科", grade := "1", sem := "1", courseName := "國文",
    category := "部定必修", defaultClasses := "一機甲" }

/-- First of two Curriculum entries sharing course name 國文 (C3). -/
def c3c_e1 : Row :=
  { dept := "機械科", grade := "1", sem := "1", courseName := "國文",
    category := "部定必修", defaultClasses := "一機甲" }

/-- Second Curriculum entry with the same course name 國文 (C3). -/
def c3c_e2 : Row :=
  { dept := "機械科", grade := "1", sem := "1", courseName := "國文",
    category := "部定必修", defaultClasses := "一機乙" }

/-- History row with blank stored category (C4). -/
def c4w_h : Row :=
  { uuid := "H9", dept := "機械科", grade := "1", sem := "1", year := "113",
    courseName := "數學", classes := "一機甲" }

/-- Curriculum entry for 數學 whose class-set intersects the record's (C4). -/
def c4w_e1 : Row :=
  { dept := "機械科", grade := "1", sem := "1", courseName := "數學",
    category := "必修", classes := "一機甲" }

/-- Later curriculum entry for 數學 with a disjoint class-set (C4). -/
def c4w_e2 : Row :=
  { dept := "機械科", grade := "1", sem := "1", courseName := "數學",
    category := "選修", classes := "一機乙" }

/-- Out-of-scope Submission row sharing identity `U1` with a History row
(C8: its grade differs from the query's). -/
def c8_sub : Row :=
  { uuid := "U1", dept := "機械科", grade := "3", sem := "1", courseName := "x",
    category := "B" }

/-- History row matched by `c8_sub` through identity `U1` (C8). -/
def c8_h1 : Row :=
  { uuid := "U1", dept := "機械科", grade := "1", sem := "1", year := "113",
    courseName := "p", category := "C" }

/-- Unmatched History row of the query scope (C8). -/
def c8_h2 : Row :=
  { uuid := "U2", dept := "機械科", grade := "1", sem := "1", year := "113",
    courseName := "y", category := "A" }

/-- The in-memory row being edited in the C7 counterexample: a
History-derived record whose identity `X` was never saved to Submission. -/
def c7_row : Row :=
  { uuid := "X", dept := "機械科", grade := "1", sem := "1", courseName := "化學" }

/-- Session state editing `c7_row` (C7). -/
def c7_sess : Session := ⟨[c7_row], some 0, some "X"⟩

/-- Submission sheet that does not contain identity `X` (C7). -/
def c7_sheet : List (List String) := [["uuid", "課程名稱"], ["Y", "數學"]]

/-- Session and sheet for the C7 witness: identity `Y` is present. -/
def c7w_sess : Session := ⟨[{ c7_row with uuid := "Y", courseName := "數學" }], some 0, some "Y"⟩

/-- The comparison `lexLt` is asymmetric. -/
theorem lexLt_asymm : ∀ (x y : List Char), lexLt x y = true → lexLt y x = false := by
  intro x
  induction x with
  | nil =>
      intro y h
      cases y with
      | nil => simp [lexLt] at h
      | cons b bs => simp [lexLt]
  | cons a as ih =>
      intro y h
      cases y with
      | nil => simp [lexLt] at h
      | cons b bs =>
          simp only [lexLt] at h ⊢
          by_cases hab : a < b
          · rw [if_neg (lt_asymm hab), if_pos hab]
          · by_cases hba : b < a
            · rw [if_neg hab, if_pos hba] at h
              exact absurd h (by simp)
            · rw [if_neg hab, if_neg hba] at h
              rw [if_neg hba, if_neg hab]
              exact ih bs h

/-- The comparison `lexLt` is transitive. -/
theorem lexLt_trans : ∀ (x y z : List Char),
    lexLt x y = true → lexLt y z = true → lexLt x z = true := by
  intro x
  induction x with
  | nil =>
      intro y z h1 h2
      cases z with
      | nil =>
          cases y with
          | nil => simp [lexLt] at h1
          | cons b bs => simp [lexLt] at h2
      | cons c cs => simp [lexLt]
  | cons a as ih =>
      intro y z h1 h2
      cases y with
      | nil => simp [lexLt] at h1
      | cons b bs =>
          cases z with
          | nil => simp [lexLt] at h2
          | cons c cs =>
              simp only [lexLt] at h1 h2 ⊢
              by_cases hab : a < b
              · by_cases hbc : b < c
                · rw [if_pos (lt_trans hab hbc)]
                · by_cases hcb : c < b
                  · rw [if_neg hbc, if_pos hcb] at h2
                    exact absurd h2 (by simp)
                  · have hbc' : b = c := le_antisymm (le_of_not_lt hcb) (le_of_not_lt hbc)
                    rw [if_pos (hbc' ▸ hab)]
              · by_cases hba : b < a
                · rw [if_neg hab, if_pos hba] at h1
                  exact absurd h1 (by simp)
                · have hab' : a = b := le_antisymm (le_of_not_lt hba) (le_of_not_lt hab)
                  rw [if_neg hab, if_neg hba] at h1
                  by_cases hbc : b < c
                  · rw [if_pos (hab' ▸ hbc)]
                  · by_cases hcb : c < b
                    · rw [if_neg hbc, if_pos hcb] at h2
                      exact absurd h2 (by simp)
                    · rw [if_neg hbc, if_neg hcb] at h2
                      rw [if_neg (hab' ▸ hbc), if_neg (hab' ▸ hcb)]
                      exact ih bs cs h1 h2

/-- Two lists neither of which is lexicographically below the other are equal. -/
theorem lexLt_connex : ∀ (x y : List Char),
    lexLt x y = false → lexLt y x = false → x = y := by
  intro x
  induction x with
  | nil =>
      intro y h1 _
      cases y with
      | nil => rfl
      | cons b bs => simp [lexLt] at h1
  | cons a as ih =>
      intro y h1 h2
      cases y with
      | nil => simp [lexLt] at h2
      | cons b bs =>
          simp only [lexLt] at h1 h2
          by_cases hab : a < b
          · rw [if_pos hab] at h1; exact absurd h1 (by simp)
          · by_cases hba : b < a
            · rw [if_pos hba] at h2; exact absurd h2 (by simp)
            · rw [if_neg hab, if_neg hba] at h1
              rw [if_neg hba, if_neg hab] at h2
              have : a = b := le_antisymm (le_of_not_lt hba) (le_of_not_lt hab)
              rw [this, ih bs h1 h2]

/-- The comparison `lexLt` is irreflexive. -/
theorem lexLt_irrefl (x : List Char) : lexLt x x = false := by
  cases h : lexLt x x with
  | false => rfl
  | true => exact absurd (lexLt_asymm x x h) (by simp [h])

/-- The comparison `cat_name_le` is total. -/
theorem cat_name_le_total (a b : Row) : cat_name_le a b = true ∨ cat_name_le b a = true := by
  by_cases h1 : lexLt b.category.data a.category.data
  · left; simp [cat_name_le, h1]
  · by_cases h2 : lexLt a.category.data b.category.data
    · right; simp [cat_name_le, h2]
    · have hcat : a.category = b.category :=
        String.ext (lexLt_connex _ _ (by simpa using h2) (by simpa using h1))
      by_cases h3 : lexLt b.courseName.data a.courseName.data
      · right; simp [cat_name_le, lexLe, hcat, lexLt_irrefl, lexLt_asymm _ _ h3]
      · left; simp [cat_name_le, lexLe, hcat, lexLt_irrefl, h3]

/-- The comparison `cat_name_le` is transitive. -/
theorem cat_name_le_trans (a b c : Row) (h1 : cat_name_le a b = true)
    (h2 : cat_name_le b c = true) : cat_name_le a c = true := by
  unfold cat_name_le at h1 h2 ⊢
  simp only [Bool.or_eq_true, Bool.and_eq_true, beq_iff_eq, lexLe, Bool.not_eq_true'] at h1 h2 ⊢
  rcases h1 with h1 | ⟨h1e, h1n⟩
  · rcases h2 with h2 | ⟨h2e, h2n⟩
    · exact Or.inl (lexLt_trans _ _ _ h2 h1)
    · exact Or.inl (h2e ▸ h1)
  · rcases h2 with h2 | ⟨h2e, h2n⟩
    · exact Or.inl (h1e ▸ h2)
    · refine Or.inr ⟨h1e.trans h2e, ?_⟩
      by_cases h : lexLt c.courseName.data a.courseName.data
      · rcases Bool.eq_false_or_eq_true (lexLt b.courseName.data c.courseName.data) with hbc | hbc
        · exact absurd (lexLt_trans _ _ _ hbc h) (by simp [h1n])
        · have hbceq : b.courseName.data = c.courseName.data := lexLt_connex _ _ hbc h2n
          rw [← hbceq] at h
          exact absurd h (by simp [h1n])
      · simpa using h

/-- The output of `sort_rows` is sorted by category descending then
course name ascending. -/
theorem sort_rows_sorted (l : List Row) : (sort_rows l).Sorted catNameRel := by
  unfold sort_rows
  exact @List.sorted_insertionSort Row catNameRel _
    ⟨fun a b => cat_name_le_total a b⟩
    ⟨fun a b c => cat_name_le_trans a b c⟩ l

/-- The sort `sort_rows` permutes its input. -/
theorem sort_rows_perm (l : List Row) : (sort_rows l).Perm l :=
  List.perm_insertionSort catNameRel l

/-- Membership is preserved by the final sort. -/
theorem mem_sort_rows {r : Row} {l : List Row} : r ∈ sort_rows l ↔ r ∈ l :=
  (sort_rows_perm l).mem_iff

/-- Counting is preserved by the final sort. -/
theorem countP_sort_rows (p : Row → Bool) (l : List Row) :
    (sort_rows l).countP p = l.countP p :=
  (sort_rows_perm l).countP_eq p

/-- The count `uuid_count` is invariant under the final sort. -/
theorem uuid_count_sort_rows (l : List Row) (u : String) :
    uuid_count (sort_rows l) u = uuid_count l u :=
  countP_sort_rows _ l

/-- One History iteration appends exactly one record. -/
theorem history_step_rows (sub : List Row) (cmap : String × String × String → String)
    (grade sem : String) (fresh : Nat → String) (st : MergeSt) (h : Row) :
    (history_step sub cmap grade sem fresh st h).rows
      = st.rows ++ [history_record sub cmap grade sem h
          (if pyStrip h.uuid = "" then fresh st.counter else pyStrip h.uuid)] := by
  unfold history_step
  by_cases h0 : pyStrip h.uuid = "" <;> simp [h0]

/-- A fold whose step only appends rows only appends rows. -/
theorem foldl_rows_append (step : MergeSt → Row → MergeSt)
    (hstep : ∀ st x, ∃ t, (step st x).rows = st.rows ++ t) :
    ∀ (l : List Row) (st : MergeSt), ∃ t, (l.foldl step st).rows = st.rows ++ t := by
  intro l
  induction l with
  | nil => exact fun st => ⟨[], by simp⟩
  | cons x l ih =>
      intro st
      obtain ⟨t1, h1⟩ := hstep st x
      obtain ⟨t2, h2⟩ := ih (step st x)
      exact ⟨t1 ++ t2, by simp [List.foldl_cons, h2, h1]⟩

/-- Rows already merged survive any append-only fold. -/
theorem mem_foldl_rows (step : MergeSt → Row → MergeSt)
    (hstep : ∀ st x, ∃ t, (step st x).rows = st.rows ++ t)
    {r : Row} {l : List Row} {st : MergeSt} (hr : r ∈ st.rows) :
    r ∈ (l.foldl step st).rows := by
  obtain ⟨t, ht⟩ := foldl_rows_append step hstep l st
  rw [ht]
  exact List.mem_append_left _ hr

/-- The step `history_step` only appends. -/
theorem history_step_append (sub : List Row) (cmap : String × String × String → String)
    (grade sem : String) (fresh : Nat → String) :
    ∀ (st : MergeSt) (x : Row),
      ∃ t, (history_step sub cmap grade sem fresh st x).rows = st.rows ++ t :=
  fun st x => ⟨_, history_step_rows sub cmap grade sem fresh st x⟩

/-- The step `orphan_step` only appends. -/
theorem orphan_step_append :
    ∀ (st : MergeSt) (x : Row), ∃ t, (orphan_step st x).rows = st.rows ++ t := by
  intro st x
  simp only [orphan_step]
  split
  · exact ⟨_, rfl⟩
  · exact ⟨[], by simp⟩

/-- Every filtered History row contributes its record to the merge. -/
theorem mem_foldl_history (sub : List Row) (cmap : String × String × String → String)
    (grade sem : String) (fresh : Nat → String) {h : Row} :
    ∀ (l : List Row) (st : MergeSt), h ∈ l → pyStrip h.uuid ≠ "" →
      history_record sub cmap grade sem h (pyStrip h.uuid)
        ∈ (l.foldl (history_step sub cmap grade sem fresh) st).rows := by
  intro l
  induction l with
  | nil => intro st hmem; simp at hmem
  | cons x l ih =>
      intro st hmem hne
      rw [List.foldl_cons]
      rcases List.mem_cons.mp hmem with heq | hmem'
      · subst heq
        apply mem_foldl_rows _ (history_step_append sub cmap grade sem fresh)
        rw [history_step_rows, if_neg hne]
        exact List.mem_append_right _ (List.mem_singleton_self _)
      · exact ih _ hmem' hne

/-- The record built for a History row carries the uuid it was merged
under. -/
theorem history_record_uuid (sub : List Row) (cmap : String × String × String → String)
    (grade sem : String) (h : Row) (hu : String) :
    (history_record sub cmap grade sem h hu).uuid = hu := by
  unfold history_record
  cases hf : sub.find? (fun s => s.uuid == hu) with
  | none => simp
  | some s =>
      have hs : s.uuid = hu := by simpa using List.find?_some hf
      simpa using hs

/-- The History pass preserves uuid multiplicities: every filtered row
with (stripped) uuid `u ≠ ""` adds one more record with uuid `u`. -/
theorem foldl_history_uuid_count (sub : List Row) (cmap : String × String × String → String)
    (grade sem : String) (fresh : Nat → String) (u : String) (hu : u ≠ "") :
    ∀ (l : List Row) (st : MergeSt),
      uuid_count st.rows u + l.countP (fun h => pyStrip h.uuid == u)
        ≤ uuid_count (l.foldl (history_step sub cmap grade sem fresh) st).rows u := by
  intro l
  induction l with
  | nil => intro st; simp
  | cons x l ih =>
      intro st
      rw [List.foldl_cons, List.countP_cons]
      have hbase : uuid_count st.rows u + (if (pyStrip x.uuid == u) = true then 1 else 0)
          ≤ uuid_count (history_step sub cmap grade sem fresh st x).rows u := by
        rw [history_step_rows]
        unfold uuid_count
        rw [List.countP_append]
        by_cases hx : (pyStrip x.uuid == u) = true
        · have hxe : pyStrip x.uuid = u := by simpa using hx
          have hne : pyStrip x.uuid ≠ "" := by rw [hxe]; exact hu
          rw [if_neg hne]
          simp [List.countP_cons, history_record_uuid, hxe]
        · simp [hx]
      have hrest := ih (history_step sub cmap grade sem fresh st x)
      omega

/-- The final Submission pass never loses a record. -/
theorem foldl_orphan_uuid_count (u : String) (l : List Row) (st : MergeSt) :
    uuid_count st.rows u ≤ uuid_count (l.foldl orphan_step st).rows u := by
  obtain ⟨t, ht⟩ := foldl_rows_append orphan_step orphan_step_append l st
  rw [ht]
  unfold uuid_count
  rw [List.countP_append]
  omega

/-- C1 (amended): Submission precedence in the history merge.  For every
filtered History row with a non-blank identity that some Submission row
carries, the merge contains the Submission version of the record: every
field is the Submission row's, except that the transient selection flag
is reset and a *blank* stored category is backfilled from the curriculum
category map.  The History row's content overwrites nothing. -/
theorem submission_precedence :
    ∀ (sub hist curr : List Row) (dept sem grade hy : String) (fresh : Nat → String)
      (h s : Row),
      h ∈ hist_filter hist dept sem grade hy →
      pyStrip h.uuid ≠ "" →
      (sub.map strip_sub).find? (fun s0 => s0.uuid == pyStrip h.uuid) = some s →
      { s with sel := false,
               category := if s.category ≠ "" then s.category
                           else category_map (curr.map strip_curr) dept
                                  (s.courseName, grade, sem) }
        ∈ load_data sub hist curr dept sem grade (some hy) fresh := by
  intro sub hist curr dept sem grade hy fresh h s hmem hne hfind
  have heq : history_record (sub.map strip_sub) (category_map (curr.map strip_curr) dept)
      grade sem h (pyStrip h.uuid)
      = { s with sel := false,
                 category := if s.category ≠ "" then s.category
                             else category_map (curr.map strip_curr) dept
                                    (s.courseName, grade, sem) } := by
    unfold history_record
    rw [hfind]
  rw [← heq]
  simp only [load_data]
  rw [mem_sort_rows]
  apply mem_foldl_rows _ orphan_step_append
  exact mem_foldl_history _ _ _ _ _ _ _ hmem hne

/-- C2 (amended): duplicate identities inside History survive as distinct
records but are *not* re-identified: every filtered History row whose
stripped uuid is a given non-blank `u` contributes a record with uuid `u`
to the merge result, so duplicates produce duplicate identities. -/
theorem history_duplicate_identities :
    ∀ (sub hist curr : List Row) (dept sem grade hy : String) (fresh : Nat → String)
      (u : String), u ≠ "" →
      (hist_filter hist dept sem grade hy).countP (fun h => pyStrip h.uuid == u)
        ≤ uuid_count (load_data sub hist curr dept sem grade (some hy) fresh) u := by
  intro sub hist curr dept sem grade hy fresh u hu
  simp only [load_data]
  rw [uuid_count_sort_rows]
  calc (hist_filter hist dept sem grade hy).countP (fun h => pyStrip h.uuid == u)
      ≤ uuid_count (MergeSt.rows ⟨[], [], 0⟩) u
          + (hist_filter hist dept sem grade hy).countP (fun h => pyStrip h.uuid == u) := by
        simp [uuid_count]
    _ ≤ uuid_count ((hist_filter hist dept sem grade hy).foldl
          (history_step (sub.map strip_sub) (category_map (curr.map strip_curr) dept)
            grade sem fresh) ⟨[], [], 0⟩).rows u :=
        foldl_history_uuid_count _ _ _ _ _ _ hu _ _
    _ ≤ _ := foldl_orphan_uuid_count _ _ _

/-- Witness for `submission_precedence`: History row `A1` also exists in
Submission, and the merge contains the Submission version. -/
theorem submission_precedence_witness :
    { c1w_sub with sel := false,
                   category := if c1w_sub.category ≠ "" then c1w_sub.category
                               else category_map (([] : List Row).map strip_curr) "機械科"
                                      (c1w_sub.courseName, "1", "1") }
      ∈ load_data [c1w_sub] [c1w_hist] [] "機械科" "1" "1" (some "113") fresh_fn :=
  submission_precedence [c1w_sub] [c1w_hist] [] "機械科" "1" "1" "113" fresh_fn
    c1w_hist c1w_sub (by decide) (by decide) (by decide)

/-- Counterexample to C1 as stated: identity `A1` is in both the filtered
Submission and filtered History sets, but the resulting record's category
(`部定必修`, backfilled from the curriculum map because the Submission
row's stored category is blank) differs from the Submission row's value —
so not *every* field of the result equals the Submission row's.  All
remaining content (classes, books) is the Submission version. -/
theorem submission_precedence_counterexample :
    (load_data [c1c_sub] [c1c_hist] [c1c_curr] "機械科" "1" "1" (some "113") fresh_fn).map
        (fun r => (r.uuid, r.category, r.classes, r.book1))
      = [("A1", "部定必修", "一機甲", "舊版物理")]
    ∧ c1c_sub.category ≠ "部定必修" := by decide

/-- Witness for `history_duplicate_identities`: two filtered History rows
carry uuid `B2`, so the merge has at least two records with uuid `B2`. -/
theorem history_duplicate_identities_witness :
    2 ≤ uuid_count (load_data [] [c2_h1, c2_h2] [] "機械科" "1" "1" (some "113") fresh_fn) "B2" :=
  Nat.le_trans (by decide)
    (history_duplicate_identities [] [c2_h1, c2_h2] [] "機械科" "1" "1" "113" fresh_fn
      "B2" (by decide))

/-- Counterexample to C2 as stated: History contains `B2` twice; both
rows survive, but the second is *not* given a freshly minted identity —
the merge result carries the duplicate identity `B2` twice. -/
theorem history_duplicate_identities_counterexample :
    (load_data [] [c2_h1, c2_h2] [] "機械科" "1" "1" (some "113") fresh_fn).map
        (fun r => r.uuid) = ["B2", "B2"]
    ∧ ¬ ((load_data [] [c2_h1, c2_h2] [] "機械科" "1" "1" (some "113") fresh_fn).map
          (fun r => r.uuid)).Nodup := by decide

/-- A Submission row that fails the class-overlap test is skipped
entirely by the inner curriculum loop. -/
theorem class_match_step_no_match (cCat dc : String) (acc : MergeSt × Bool) (s : Row)
    (h : check_class_match dc s.classes = false) :
    class_match_step cCat dc acc s = acc := by
  simp [class_match_step, h]

/-- If no matching Submission row class-overlaps, the inner curriculum
loop is the identity (and in particular `found_match` stays false). -/
theorem class_match_foldl_no_match (cCat dc : String) :
    ∀ (sm : List Row) (st : MergeSt) (b : Bool),
      (∀ s ∈ sm, check_class_match dc s.classes = false) →
      sm.foldl (class_match_step cCat dc) (st, b) = (st, b) := by
  intro sm
  induction sm with
  | nil => intro st b _; rfl
  | cons s sm ih =>
      intro st b hall
      rw [List.foldl_cons, class_match_step_no_match _ _ _ _ (hall s (List.mem_cons_self _ _))]
      exact ih st b (fun x hx => hall x (List.mem_cons_of_mem _ hx))

/-- Full characterization of the inner curriculum loop: the counter is
untouched, the `found_match` flag becomes true iff some matching row
class-overlaps, and every appended row is a class-matching Submission row
re-categorized to the entry's category. -/
theorem class_match_foldl_spec (cCat dc : String) :
    ∀ (sm : List Row) (st : MergeSt) (b : Bool),
      ((sm.foldl (class_match_step cCat dc) (st, b)).1.counter = st.counter)
      ∧ ((sm.foldl (class_match_step cCat dc) (st, b)).2
           = (b || sm.any (fun s => check_class_match dc s.classes)))
      ∧ (∃ t, (sm.foldl (class_match_step cCat dc) (st, b)).1.rows = st.rows ++ t
          ∧ ∀ r ∈ t, ∃ s, s ∈ sm ∧ check_class_match dc s.classes = true
              ∧ r = { s with sel := false, category := cCat }) := by
  intro sm
  induction sm with
  | nil =>
      intro st b
      exact ⟨rfl, by simp, ⟨[], by simp, by simp⟩⟩
  | cons s sm ih =>
      intro st b
      rw [List.foldl_cons]
      by_cases hcm : check_class_match dc s.classes = true
      · by_cases happ : (pyStrip s.uuid ≠ "" && !(st.displayed.contains (pyStrip s.uuid))) = true
        · have hstep : class_match_step cCat dc (st, b) s
              = (⟨st.rows ++ [{ s with sel := false, category := cCat }],
                  st.displayed ++ [pyStrip s.uuid], st.counter⟩, true) := by
            simp only [class_match_step, hcm, if_true, happ]
          rw [hstep]
          obtain ⟨hc, hf, t, ht, hts⟩ :=
            ih ⟨st.rows ++ [{ s with sel := false, category := cCat }],
                st.displayed ++ [pyStrip s.uuid], st.counter⟩ true
          refine ⟨by simpa using hc, by simp [hf, hcm],
            { s with sel := false, category := cCat } :: t, ?_, ?_⟩
          · rw [ht]; simp
          · intro r hr
            rcases List.mem_cons.mp hr with hr | hr
            · exact ⟨s, List.mem_cons_self _ _, hcm, hr⟩
            · obtain ⟨s', hs', hc', he'⟩ := hts r hr
              exact ⟨s', List.mem_cons_of_mem _ hs', hc', he'⟩
        · have hstep : class_match_step cCat dc (st, b) s = (st, true) := by
            simp only [class_match_step, hcm, if_true]
            rw [if_neg (by simpa using happ)]
          rw [hstep]
          obtain ⟨hc, hf, t, ht, hts⟩ := ih st true
          refine ⟨hc, by simp [hf, hcm], t, ht, ?_⟩
          intro r hr
          obtain ⟨s', hs', hc', he'⟩ := hts r hr
          exact ⟨s', List.mem_cons_of_mem _ hs', hc', he'⟩
      · have hcm' : check_class_match dc s.classes = false := by simpa using hcm
        rw [class_match_step_no_match _ _ _ _ hcm']
        obtain ⟨hc, hf, t, ht, hts⟩ := ih st b
        refine ⟨hc, by simp [hf, hcm'], t, ht, ?_⟩
        intro r hr
        obtain ⟨s', hs', hc', he'⟩ := hts r hr
        exact ⟨s', List.mem_cons_of_mem _ hs', hc', he'⟩

/-- When no Submission row class-matches a curriculum entry, the entry
synthesizes exactly the placeholder (with the next fresh identity). -/
theorem curriculum_step_no_match (sub : List Row) (dept sem grade : String)
    (fresh : Nat → String) (st : MergeSt) (c : Row)
    (h : (sub_matches_for sub dept sem grade c.courseName).any
          (fun s => check_class_match (default_class_of c) s.classes) = false) :
    curriculum_step sub dept sem grade fresh st c
      = { rows := st.rows ++ [placeholder_row dept grade sem c (default_class_of c)
            (fresh st.counter)],
          displayed := st.displayed, counter := st.counter + 1 } := by
  have hall : ∀ s ∈ sub_matches_for sub dept sem grade c.courseName,
      check_class_match (default_class_of c) s.classes = false := by
    intro s hs
    have := List.any_eq_false.mp h s hs
    simpa using this
  simp only [curriculum_step]
  rw [class_match_foldl_no_match _ _ _ _ _ hall]
  simp

/-- When some Submission row class-matches a curriculum entry, no
placeholder is synthesized (no fresh identity is consumed) and the rows
appended for the entry are exactly re-categorized Submission rows. -/
theorem curriculum_step_found (sub : List Row) (dept sem grade : String)
    (fresh : Nat → String) (st : MergeSt) (c : Row)
    (h : (sub_matches_for sub dept sem grade c.courseName).any
          (fun s => check_class_match (default_class_of c) s.classes) = true) :
    (curriculum_step sub dept sem grade fresh st c).counter = st.counter
    ∧ ∃ t, (curriculum_step sub dept sem grade fresh st c).rows = st.rows ++ t
        ∧ ∀ r ∈ t, ∃ s, s ∈ sub_matches_for sub dept sem grade c.courseName
            ∧ check_class_match (default_class_of c) s.classes = true
            ∧ r = { s with sel := false, category := c.category } := by
  obtain ⟨hc, hf, t, ht, hts⟩ :=
    class_match_foldl_spec c.category (default_class_of c)
      (sub_matches_for sub dept sem grade c.courseName) st false
  have hf' : ((sub_matches_for sub dept sem grade c.courseName).foldl
      (class_match_step c.category (default_class_of c)) (st, false)).2 = true := by
    rw [hf]; simp [h]
  simp only [curriculum_step, hf', if_true]
  exact ⟨hc, t, ht, hts⟩

/-- The step `curriculum_step` only appends. -/
theorem curriculum_step_append (sub : List Row) (dept sem grade : String)
    (fresh : Nat → String) :
    ∀ (st : MergeSt) (c : Row),
      ∃ t, (curriculum_step sub dept sem grade fresh st c).rows = st.rows ++ t := by
  intro st c
  by_cases h : (sub_matches_for sub dept sem grade c.courseName).any
      (fun s => check_class_match (default_class_of c) s.classes) = true
  · obtain ⟨-, t, ht, -⟩ := curriculum_step_found sub dept sem grade fresh st c h
    exact ⟨t, ht⟩
  · rw [curriculum_step_no_match sub dept sem grade fresh st c (by simpa using h)]
    exact ⟨_, rfl⟩

/-- Every unmatched entry of the filtered curriculum leaves its
placeholder in the fold result. -/
theorem mem_foldl_curriculum (sub : List Row) (dept sem grade : String)
    (fresh : Nat → String) {c : Row} :
    ∀ (l : List Row) (st : MergeSt), c ∈ l →
      (sub_matches_for sub dept sem grade c.courseName).any
          (fun s => check_class_match (default_class_of c) s.classes) = false →
      ∃ k, placeholder_row dept grade sem c (default_class_of c) (fresh k)
          ∈ (l.foldl (curriculum_step sub dept sem grade fresh) st).rows := by
  intro l
  induction l with
  | nil => intro st hmem; simp at hmem
  | cons x l ih =>
      intro st hmem hno
      rw [List.foldl_cons]
      rcases List.mem_cons.mp hmem with heq | hmem'
      · subst heq
        refine ⟨st.counter, ?_⟩
        apply mem_foldl_rows _ (curriculum_step_append sub dept sem grade fresh)
        rw [curriculum_step_no_match sub dept sem grade fresh st c hno]
        exact List.mem_append_right _ (List.mem_singleton_self _)
      · exact ih _ hmem' hno

/-- C3 (amended): curriculum padding condition.  A placeholder (empty
book slots, fresh identity, the entry's default class-list and category,
unselected) is synthesized for a curriculum entry iff *no* Submission row
of the same scope and course name passes the class-overlap test against
the entry's default class-list; the course names accumulated from other
entries play no part.  When some row does pass, no fresh identity is
consumed and only re-categorized Submission rows are appended. -/
theorem curriculum_padding :
    (∀ (sub : List Row) (dept sem grade : String) (fresh : Nat → String)
       (st : MergeSt) (c : Row),
       ((sub_matches_for sub dept sem grade c.courseName).any
           (fun s => check_class_match (default_class_of c) s.classes) = false →
         curriculum_step sub dept sem grade fresh st c
           = { rows := st.rows ++ [placeholder_row dept grade sem c (default_class_of c)
                 (fresh st.counter)],
               displayed := st.displayed, counter := st.counter + 1 })
       ∧ ((sub_matches_for sub dept sem grade c.courseName).any
           (fun s => check_class_match (default_class_of c) s.classes) = true →
         (curriculum_step sub dept sem grade fresh st c).counter = st.counter
         ∧ ∃ t, (curriculum_step sub dept sem grade fresh st c).rows = st.rows ++ t
             ∧ ∀ r ∈ t, ∃ s, s ∈ sub_matches_for sub dept sem grade c.courseName
                 ∧ check_class_match (default_class_of c) s.classes = true
                 ∧ r = { s with sel := false, category := c.category }))
    ∧ (∀ (sub hist curr : List Row) (dept sem grade : String) (fresh : Nat → String)
       (c : Row),
        c ∈ curr_scope (curr.map strip_curr) dept sem grade →
        (sub_matches_for (sub.map strip_sub) dept sem grade c.courseName).any
            (fun s => check_class_match (default_class_of c) s.classes) = false →
        ∃ k, placeholder_row dept grade sem c (default_class_of c) (fresh k)
            ∈ load_data sub hist curr dept sem grade none fresh) := by
  constructor
  · intro sub dept sem grade fresh st c
    exact ⟨curriculum_step_no_match sub dept sem grade fresh st c,
           curriculum_step_found sub dept sem grade fresh st c⟩
  · intro sub hist curr dept sem grade fresh c hmem hno
    simp only [load_data]
    obtain ⟨k, hk⟩ := mem_foldl_curriculum (sub.map strip_sub) dept sem grade fresh
      (curr_scope (curr.map strip_curr) dept sem grade) ⟨[], [], 0⟩ hmem hno
    refine ⟨k, ?_⟩
    rw [mem_sort_rows]
    exact mem_foldl_rows _ orphan_step_append hk

/-- Witness for `curriculum_padding`: the entry 國文 has no Submission
row at all, so a placeholder with a freshly minted identity is in the
merge result. -/
theorem curriculum_padding_witness :
    ∃ k, placeholder_row "機械科" "1" "1" c3w_curr (default_class_of c3w_curr) (fresh_fn k)
        ∈ load_data [] [] [c3w_curr] "機械科" "1" "1" none fresh_fn :=
  curriculum_padding.2 [] [] [c3w_curr] "機械科" "1" "1" fresh_fn c3w_curr
    (by decide) (by decide)

/-- Counterexample to C3 as stated: two curriculum entries share the
course name 國文 and Submission is empty.  After the first entry's
placeholder, 國文 *is* present among the accumulated course names, yet
the second entry still synthesizes a placeholder — the accumulated
course-name set is never consulted. -/
theorem curriculum_padding_counterexample :
    (load_data [] [] [c3c_e1, c3c_e2] "機械科" "1" "1" none fresh_fn).map
        (fun r => r.courseName) = ["國文", "國文"]
    ∧ ¬ ((load_data [] [] [c3c_e1, c3c_e2] "機械科" "1" "1" none fresh_fn).map
          (fun r => r.courseName)).Nodup := by decide

/-- Reading a dict built by repeated assignment returns the value of the
last assignment to that key (or the initial map's value). -/
theorem foldl_assign_eq_reverse_find :
    ∀ (l : List Row) (m0 : String × String × String → String) (k : String × String × String),
      (l.foldl (fun m r k2 =>
          if k2 = (r.courseName, r.grade, r.sem) then r.category else m k2) m0) k
      = (match l.reverse.find? (fun r => (r.courseName, r.grade, r.sem) == k) with
         | some r => r.category
         | none => m0 k) := by
  intro l
  induction l with
  | nil => intro m0 k; simp
  | cons r l ih =>
      intro m0 k
      rw [List.foldl_cons, ih]
      rw [List.reverse_cons, List.find?_append]
      cases hf : l.reverse.find? (fun r => (r.courseName, r.grade, r.sem) == k) with
      | some r' => simp
      | none =>
          simp only [Option.none_or]
          by_cases hk : ((r.courseName, r.grade, r.sem) == k) = true
          · have hke : k = (r.courseName, r.grade, r.sem) := by
              have := beq_iff_eq.mp hk
              exact this.symm
            simp [List.find?, hk, hke]
          · have hkne : ¬ (k = (r.courseName, r.grade, r.sem)) := by
              intro hke
              exact hk (beq_iff_eq.mpr hke.symm)
            simp [List.find?, hk, hkne]

/-- The `category_map` dict lookup equals the category of the *last*
same-department curriculum row with the same key, irrespective of
class-lists. -/
theorem category_map_eq_last_match (curr : List Row) (dept name grade sem : String) :
    category_map curr dept (name, grade, sem)
      = last_match_category curr dept name grade sem := by
  unfold category_map last_match_category
  rw [foldl_assign_eq_reverse_find]

/-- C4 (amended): category resolution in the history merge.  The
curriculum lookup keys on (course name, query grade, query semester)
only: when several same-department entries share the key, the *last*
one's category is used, regardless of class-lists; and it is consulted
only when the record's own stored category is blank — a non-blank stored
category is kept; when no entry matches, the blank is kept. -/
theorem category_resolution :
    (∀ (curr : List Row) (dept name grade sem : String),
        category_map curr dept (name, grade, sem)
          = last_match_category curr dept name grade sem)
    ∧ (∀ (sub hist curr : List Row) (dept sem grade hy : String) (fresh : Nat → String)
        (h : Row),
        h ∈ hist_filter hist dept sem grade hy →
        pyStrip h.uuid ≠ "" →
        (sub.map strip_sub).find? (fun s0 => s0.uuid == pyStrip h.uuid) = none →
        { h with uuid := pyStrip h.uuid, sel := false,
                 category := if h.category ≠ "" then h.category
                             else last_match_category (curr.map strip_curr) dept
                                    h.courseName grade sem }
          ∈ load_data sub hist curr dept sem grade (some hy) fresh) := by
  constructor
  · exact fun curr dept name grade sem => category_map_eq_last_match curr dept name grade sem
  · intro sub hist curr dept sem grade hy fresh h hmem hne hfind
    have heq : history_record (sub.map strip_sub) (category_map (curr.map strip_curr) dept)
        grade sem h (pyStrip h.uuid)
        = { h with uuid := pyStrip h.uuid, sel := false,
                   category := if h.category ≠ "" then h.category
                               else last_match_category (curr.map strip_curr) dept
                                      h.courseName grade sem } := by
      unfold history_record
      rw [hfind]
      simp [category_map_eq_last_match]
    rw [← heq]
    simp only [load_data]
    rw [mem_sort_rows]
    apply mem_foldl_rows _ orphan_step_append
    exact mem_foldl_history _ _ _ _ _ _ _ hmem hne

/-- Witness for `category_resolution`: a History record with blank stored
category receives the last matching curriculum entry's category. -/
theorem category_resolution_witness :
    { c4w_h with uuid := pyStrip c4w_h.uuid, sel := false,
                 category := if c4w_h.category ≠ "" then c4w_h.category
                             else last_match_category
                                    (([c4w_e1, c4w_e2] : List Row).map strip_curr)
                                    "機械科" c4w_h.courseName "1" "1" }
      ∈ load_data [] [c4w_h] [c4w_e1, c4w_e2] "機械科" "1" "1" (some "113") fresh_fn :=
  category_resolution.2 [] [c4w_h] [c4w_e1, c4w_e2] "機械科" "1" "1" "113" fresh_fn
    c4w_h (by decide) (by decide) (by decide)

/-- Counterexample to C4 as stated: two curriculum entries share the key
(數學, 1, 1); the first one's class-set intersects the record's
applicable classes and the second's does not, yet the record receives the
*second* (last) entry's category 選修, not the intersecting entry's 必修. -/
theorem category_resolution_counterexample :
    (load_data [] [c4w_h] [c4w_e1, c4w_e2] "機械科" "1" "1" (some "113") fresh_fn).map
        (fun r => r.category) = ["選修"]
    ∧ check_class_match c4w_e1.classes c4w_h.classes = true
    ∧ check_class_match c4w_e2.classes c4w_h.classes = false
    ∧ c4w_e1.category = "必修"
    ∧ ("選修" : String) ≠ "必修" := by decide

/-- A found row index is inside the data rows. -/
theorem find_row_idx_lt (rows : List (List String)) (idx : Nat) (target : String)
    (i : Nat) (h : find_row_idx rows idx target = some i) : i < rows.length :=
  (List.findIdx?_eq_some_iff_findIdx_eq.mp h).1

/-- Either `delete_row_from_db` leaves the sheet untouched and reports
failure, or deletes exactly the first matching data row and reports
success. -/
theorem delete_row_from_db_cases (sheet : List (List String)) (u : String) :
    delete_row_from_db sheet u = (false, sheet)
    ∨ (∃ headers dataRows i, sheet = headers :: dataRows
        ∧ find_row_idx dataRows (headers.indexOf "uuid") u = some i
        ∧ i < dataRows.length
        ∧ delete_row_from_db sheet u = (true, headers :: dataRows.eraseIdx i)) := by
  by_cases hu : u = ""
  · left; simp [delete_row_from_db, hu]
  · cases sheet with
    | nil => left; simp [delete_row_from_db, hu]
    | cons headers dataRows =>
        by_cases hc : headers.contains "uuid" = true
        · have hc2 : "uuid" ∈ headers := by simpa using hc
          cases hfi : find_row_idx dataRows (headers.indexOf "uuid") u with
          | some i =>
              exact Or.inr ⟨headers, dataRows, i, rfl, hfi,
                find_row_idx_lt _ _ _ _ hfi,
                by simp [delete_row_from_db, hu, hc2, hfi]⟩
          | none => left; simp [delete_row_from_db, hu, hc2, hfi]
        · have hc2 : "uuid" ∉ headers := by simpa using hc
          left; simp [delete_row_from_db, hu, hc2]

/-- C7 (amended): delete semantics.  When the edited identity is found in
the Submission sheet, the backing row is removed (the sheet shrinks by
exactly one row), the edited row is dropped from the in-memory merged
table and the edit index is cleared; when the identity is *not* found,
`delete_row_from_db` reports failure and everything — the sheet, the
in-memory table and the editing state — is left exactly as it was (the
row is not dropped and the session does not return to idle). -/
theorem delete_semantics :
    ∀ (sess : Session) (sheet : List (List String)),
      ((delete_row_from_db sheet (sess.currentUuid.getD "")).1 = true →
         (main_delete sess sheet).1.editIndex = none
         ∧ (main_delete sess sheet).1.data = sess.data.eraseIdx (sess.editIndex.getD 0)
         ∧ (main_delete sess sheet).2.length + 1 = sheet.length)
      ∧ ((delete_row_from_db sheet (sess.currentUuid.getD "")).1 = false →
         main_delete sess sheet = (sess, sheet)) := by
  intro sess sheet
  constructor
  · intro h
    have hm : main_delete sess sheet
        = ({ data := sess.data.eraseIdx (sess.editIndex.getD 0), editIndex := none,
             currentUuid := sess.currentUuid },
           (delete_row_from_db sheet (sess.currentUuid.getD "")).2) := by
      simp [main_delete, h]
    refine ⟨by rw [hm], by rw [hm], ?_⟩
    rw [hm]
    rcases delete_row_from_db_cases sheet (sess.currentUuid.getD "") with hcase | hcase
    · rw [hcase] at h; simp at h
    · obtain ⟨headers, dataRows, i, hsheet, -, hlt, hdel⟩ := hcase
      rw [hdel, hsheet]
      simp [List.length_eraseIdx, hlt]
      omega
  · intro h
    have h2 : (delete_row_from_db sheet (sess.currentUuid.getD "")).2 = sheet := by
      rcases delete_row_from_db_cases sheet (sess.currentUuid.getD "") with hcase | hcase
      · rw [hcase]
      · obtain ⟨headers, dataRows, i, -, -, -, hdel⟩ := hcase
        rw [hdel] at h; simp at h
    simp [main_delete, h, h2]

/-- Witness for `delete_semantics`: identity `Y` is in the sheet, so the
delete removes the backing row, drops the in-memory row and clears the
edit index. -/
theorem delete_semantics_witness :
    (main_delete c7w_sess c7_sheet).1.editIndex = none
    ∧ (main_delete c7w_sess c7_sheet).1.data
        = c7w_sess.data.eraseIdx (c7w_sess.editIndex.getD 0)
    ∧ (main_delete c7w_sess c7_sheet).2.length + 1 = c7_sheet.length :=
  (delete_semantics c7w_sess c7_sheet).1 (by decide)

/-- Counterexample to C7 as stated: the edited identity `X` is not in the
Submission sheet.  The claim says the row is nevertheless dropped from
the in-memory table and the session returns to idle; in the code
`delete_row_from_db` returns `False`, so the table still holds the row
and the edit index is still set (the store itself is unchanged, which is
the no-op half of the claim). -/
theorem delete_semantics_counterexample :
    (main_delete c7_sess c7_sheet).1.data ≠ []
    ∧ (main_delete c7_sess c7_sheet).1.editIndex ≠ none
    ∧ (main_delete c7_sess c7_sheet).2 = c7_sheet := by decide

/-- C8 (amended): the merge result is sorted by category descending then
course name ascending (`catNameRel` is exactly that comparison); grade
and semester are not sort keys. -/
theorem merge_sort_order :
    ∀ (sub hist curr : List Row) (dept sem grade : String) (hy : Option String)
      (fresh : Nat → String),
      (load_data sub hist curr dept sem grade hy fresh).Sorted catNameRel := by
  intro sub hist curr dept sem grade hy fresh
  cases hy <;> exact sort_rows_sorted _

/-- Counterexample to C8 as stated: the merge output places a grade-3
record before a grade-1 record (the Submission row matched through its
identity keeps its own grade), because the sort keys are only category
(descending) and course name (ascending) — grade is not the primary key,
although `"1" < "3"` lexicographically. -/
theorem merge_sort_order_counterexample :
    (load_data [c8_sub] [c8_h1, c8_h2] [] "機械科" "1" "1" (some "113") fresh_fn).map
        (fun r => r.grade) = ["3", "1"]
    ∧ lexLt "1".data "3".data = true := by decide

/-- C9 (amended): header normalization never drops a column: duplicated
canonical names — the identity column `uuid` included — receive numeric
suffixes instead of being dropped, so the output always has exactly as
many columns as the input; a duplicated `uuid` column becomes `uuid(2)`. -/
theorem header_normalization :
    (∀ (headers : List String), (get_df_headers headers).length = headers.length)
    ∧ get_df_headers ["uuid", "uuid"] = ["uuid", "uuid(2)"] := by
  constructor
  · have haux : ∀ (hs : List String) (seen : String → Nat),
        (get_df_headers_aux hs seen).length = hs.length := by
      intro hs
      induction hs with
      | nil => intro seen; rfl
      | cons col rest ih =>
          intro seen
          simp only [get_df_headers_aux]
          split <;> simp [ih]
    exact fun headers => haux headers (fun _ => 0)
  · decide

/-- Counterexample to C9 as stated: a second `uuid` column is *not*
dropped — it is renamed `uuid(2)` and kept, so the normalized header row
is not the single-column `["uuid"]` the claim requires. -/
theorem header_normalization_counterexample :
    get_df_headers ["uuid", "uuid"] = ["uuid", "uuid(2)"]
    ∧ get_df_headers ["uuid", "uuid"] ≠ ["uuid"] := by decide

/-- C10: when the Submission sheet has a header row without a `uuid`
column, `save_single_row` clears the whole sheet — destroying every
previously stored data row — then writes the fixed header and appends the
single record being saved. -/
theorem save_clears_sheet_without_uuid :
    ∀ (hs : List String) (rest : List (List String)) (rd : Row) (ts yr : String),
      hs.contains "uuid" = false →
      save_single_row (hs :: rest) rd ts yr
        = [fixed_header, row_to_write fixed_header rd ts yr] := by
  intro hs rest rd ts yr h
  have h2 : "uuid" ∉ hs := by simpa using h
  simp [save_single_row, h2, find_row_idx, List.findIdx?_nil]

/-- Witness for `save_clears_sheet_without_uuid`: a sheet with two data
rows and no `uuid` column is reduced to the fixed header plus the single
saved record. -/
theorem save_clears_sheet_without_uuid_witness :
    save_single_row [["課程名稱", "教科書"], ["數學", "舊書"], ["英文", "讀本"]]
        c10_rd "2026-01-01" "114"
      = [fixed_header, row_to_write fixed_header c10_rd "2026-01-01" "114"] :=
  save_clears_sheet_without_uuid ["課程名稱", "教科書"] [["數學", "舊書"], ["英文", "讀本"]]
    c10_rd "2026-01-01" "114" (by decide)

/-- The update `set_sel` leaves other indices unchanged. -/
theorem set_sel_getElem_ne (l : List Row) (i : Nat) (b : Bool) (j : Nat) (h : j ≠ i) :
    (set_sel l i b)[j]? = l[j]? := by
  unfold set_sel
  cases hi : l[i]? with
  | none => rfl
  | some r =>
      rw [List.getElem?_set]
      simp [Ne.symm h]

/-- The update `set_sel` rewrites the flag at its index. -/
theorem set_sel_getElem_self (l : List Row) (i : Nat) (b : Bool) :
    (set_sel l i b)[i]? = l[i]?.map (fun r => { r with sel := b }) := by
  unfold set_sel
  cases hi : l[i]? with
  | none => simpa using hi
  | some r =>
      have hlen : i < l.length := (List.getElem?_eq_some.mp hi).1
      rw [List.getElem?_set]
      simp [hlen, hi]

/-- The freshly loaded table satisfies the editor invariant. -/
theorem sel_only_at_initial (rows : List Row) : sel_only_at (initial_editor rows) := by
  intro i r h hsel
  simp only [initial_editor, List.getElem?_map] at h
  rcases hmap : rows[i]? with - | r0
  · rw [hmap] at h; exact Option.noConfusion h
  · rw [hmap] at h
    simp only [Option.map_some'] at h
    rw [← Option.some.inj h] at hsel
    simp at hsel

/-- The branch `apply_check` (checking a new row) preserves the invariant. -/
theorem sel_only_at_apply_check {st : EditorSt} (hinv : sel_only_at st) (nci : Option Nat) :
    sel_only_at (apply_check st nci) := by
  cases nci with
  | none => simpa [apply_check] using hinv
  | some j =>
      intro i r hget hsel
      simp only [apply_check] at hget ⊢
      by_cases hij : i = j
      · rw [hij]
      · exfalso
        rw [set_sel_getElem_ne _ _ _ _ hij] at hget
        cases hei : st.editIndex with
        | none =>
            rw [hei] at hget
            have := hinv i r hget hsel
            rw [hei] at this
            exact Option.noConfusion this
        | some ci =>
            rw [hei] at hget
            dsimp only at hget
            by_cases hcj : ci ≠ j
            · rw [if_pos hcj] at hget
              by_cases hic : i = ci
              · rw [hic, set_sel_getElem_self] at hget
                rcases hsd : st.data[ci]? with - | r0
                · rw [hsd] at hget; exact Option.noConfusion hget
                · rw [hsd] at hget
                  simp only [Option.map_some'] at hget
                  rw [← Option.some.inj hget] at hsel
                  simp at hsel
              · rw [set_sel_getElem_ne _ _ _ _ hic] at hget
                have := hinv i r hget hsel
                rw [hei] at this
                exact hic (Option.some.inj this).symm
            · rw [if_neg hcj] at hget
              have hcj' : ci = j := by simpa using hcj
              have := hinv i r hget hsel
              rw [hei] at this
              exact hij ((Option.some.inj this).symm.trans hcj')

/-- One `on_editor_change` event preserves the invariant. -/
theorem sel_only_at_step {st : EditorSt} (hinv : sel_only_at st)
    (edits : List (Nat × Option Bool)) : sel_only_at (on_editor_change st edits) := by
  unfold on_editor_change
  cases hei : st.editIndex with
  | none =>
      exact sel_only_at_apply_check hinv _
  | some ci =>
      dsimp only
      by_cases hun : lookup_edit edits ci = some (some false)
      · rw [if_pos hun]
        intro i r hget hsel
        exfalso
        simp only at hget
        by_cases hic : i = ci
        · rw [hic, set_sel_getElem_self] at hget
          rcases hsd : st.data[ci]? with - | r0
          · rw [hsd] at hget; exact Option.noConfusion hget
          · rw [hsd] at hget
            simp only [Option.map_some'] at hget
            rw [← Option.some.inj hget] at hsel
            simp at hsel
        · rw [set_sel_getElem_ne _ _ _ _ hic] at hget
          have := hinv i r hget hsel
          rw [hei] at this
          exact hic (Option.some.inj this).symm
      · rw [if_neg hun]
        exact sel_only_at_apply_check hinv _

/-- A list whose selected entries all sit at one index has at most one
selected entry. -/
theorem filter_sel_le_one : ∀ (l : List Row) (k : Nat),
    (∀ i r, l[i]? = some r → r.sel = true → i = k) →
    (l.filter (fun r => r.sel)).length ≤ 1 := by
  intro l
  induction l with
  | nil => intro k _; simp
  | cons a t ih =>
      intro k h
      by_cases ha : a.sel = true
      · have hk : 0 = k := h 0 a (by simp) ha
        have htnil : t.filter (fun r => r.sel) = [] := by
          rw [List.filter_eq_nil_iff]
          intro x hx hxsel
          obtain ⟨j, hj⟩ := List.getElem?_of_mem hx
          have := h (j + 1) x (by simpa using hj) (by simpa using hxsel)
          omega
        simp [List.filter_cons, ha, htnil]
      · have ha' : a.sel = false := by simpa using ha
        simp only [List.filter_cons, ha', Bool.false_eq_true, if_false]
        refine ih (k - 1) (fun i r hir hsel => ?_)
        have := h (i + 1) r (by simpa using hir) hsel
        omega

/-- The invariant bounds the number of selected rows by one. -/
theorem sel_only_at_count {st : EditorSt} (hinv : sel_only_at st) :
    count_selected st.data ≤ 1 := by
  cases hei : st.editIndex with
  | some k =>
      unfold count_selected
      refine filter_sel_le_one st.data k (fun i r h hs => ?_)
      have := hinv i r h hs
      rw [hei] at this
      exact (Option.some.inj this).symm
  | none =>
      unfold count_selected
      have hnil : st.data.filter (fun r => r.sel) = [] := by
        rw [List.filter_eq_nil_iff]
        intro x hx hxsel
        obtain ⟨i, hi⟩ := List.getElem?_of_mem hx
        have := hinv i x hi (by simpa using hxsel)
        rw [hei] at this
        exact Option.noConfusion this
      simp [hnil]

/-- The invariant is preserved by any sequence of editor events. -/
theorem sel_only_at_fold (events : List (List (Nat × Option Bool))) :
    ∀ st, sel_only_at st → sel_only_at (events.foldl on_editor_change st) := by
  induction events with
  | nil => intro st h; exact h
  | cons e es ih => intro st h; exact ih _ (sel_only_at_step h e)

/-- C6: single-selection invariant.  Starting from a freshly loaded table
(all flags false, nothing being edited), after any sequence of
editor-change events at most one row is selected; and when a new row `j`
is checked while row `ci ≠ j` is being edited, the newest check wins:
`j` becomes the edited row with its flag true and row `ci`'s flag is
forced back to false. -/
theorem single_selection :
    (∀ (rows : List Row) (events : List (List (Nat × Option Bool))),
       count_selected ((events.foldl on_editor_change (initial_editor rows)).data) ≤ 1)
    ∧ (∀ (data : List Row) (ci j : Nat), ci ≠ j →
       (on_editor_change ⟨data, some ci⟩ [(j, some true)]).editIndex = some j
       ∧ (∀ r, (on_editor_change ⟨data, some ci⟩ [(j, some true)]).data[ci]? = some r →
             r.sel = false)
       ∧ (∀ r, (on_editor_change ⟨data, some ci⟩ [(j, some true)]).data[j]? = some r →
             r.sel = true)) := by
  constructor
  · intro rows events
    exact sel_only_at_count (sel_only_at_fold events _ (sel_only_at_initial rows))
  · intro data ci j hij
    have hred : on_editor_change ⟨data, some ci⟩ [(j, some true)]
        = ⟨set_sel (set_sel data ci false) j true, some j⟩ := by
      have hji : (j == ci) = false := beq_eq_false_iff_ne.mpr (Ne.symm hij)
      simp [on_editor_change, lookup_edit, apply_check, hij, hji, List.find?]
    rw [hred]
    refine ⟨rfl, ?_, ?_⟩
    · intro r hr
      simp only at hr
      rw [set_sel_getElem_ne _ _ _ _ hij, set_sel_getElem_self] at hr
      rcases hsd : data[ci]? with - | r0
      · rw [hsd] at hr; exact Option.noConfusion hr
      · rw [hsd] at hr
        simp only [Option.map_some'] at hr
        rw [← Option.some.inj hr]
    · intro r hr
      simp only at hr
      rw [set_sel_getElem_self] at hr
      rcases hsd : (set_sel data ci false)[j]? with - | r0
      · rw [hsd] at hr; exact Option.noConfusion hr
      · rw [hsd] at hr
        simp only [Option.map_some'] at hr
        rw [← Option.some.inj hr]

/-- Witness for `single_selection`: checking row 1 while row 0 is being
edited moves the edit index to row 1. -/
theorem single_selection_witness :
    (on_editor_change ⟨c6_rows, some 0⟩ [(1, some true)]).editIndex = some 1 :=
  (single_selection.2 c6_rows 0 1 (by decide)).1

/-- C5: class-set overlap semantics of `check_class_match`: an empty
parsed default set always matches; a non-empty default set never matches
an empty candidate set; otherwise the result is exactly set
intersection.  The three concrete examples of the spec are included. -/
theorem check_class_match_spec :
    (∀ d s : String,
      ((parse_classes d).isEmpty = true → check_class_match d s = true)
      ∧ ((parse_classes d).isEmpty = false → (parse_classes s).isEmpty = true →
          check_class_match d s = false)
      ∧ ((parse_classes d).isEmpty = false → (parse_classes s).isEmpty = false →
          (check_class_match d s = true ↔
            ∃ c, c ∈ parse_classes d ∧ c ∈ parse_classes s)))
    ∧ check_class_match "" "甲班" = true
    ∧ check_class_match "甲班" "" = false
    ∧ check_class_match "甲班,乙班" "乙班" = true := by
  refine ⟨fun d s => ⟨?_, ?_, ?_⟩, by decide, by decide, by decide⟩
  · intro h
    simp [check_class_match, h]
  · intro hd hs
    simp [check_class_match, hd, hs]
  · intro hd hs
    simp only [check_class_match, hd, hs, if_false, Bool.false_eq_true]
    simp [List.any_eq_true, List.elem_iff]

/-- Witness for `check_class_match_spec`: the intersection clause applied
at concrete inputs with both parsed sets non-empty. -/
theorem check_class_match_spec_witness :
    check_class_match "甲,乙" "乙,丙" = true :=
  ((check_class_match_spec.1 "甲,乙" "乙,丙").2.2 (by decide) (by decide)).mpr
    ⟨"乙", by decide, by decide⟩

end CurriculumsFill
